import Mathlib

/-!
Shallow embedding of the CHIP-8 emulator core of this repository, taken from
`src/RUST/src/chip8.rs` (`struct Chip8`, `Chip8::new`, `Chip8::load`,
`Chip8::emulate_cycle`).

Machine integers are modelled as `Nat` with explicit reductions `% 256` /
`% 65536` exactly where the Rust code performs wrapping 8-bit / 16-bit
arithmetic (`wrapping_add`, `overflowing_add`, `overflowing_sub`, `u8` shifts,
`u16` additions in release mode).  Rust `panic!` sites — the explicit
`panic!("Unknown opcode ...")` arms as well as the implicit slice-index panics
on `memory`, `stack` and `key` — are modelled as an `Except` error result, so a
step either returns the successor state or halts with a fatal error.
-/

/-- Fatal conditions of one emulation step: the explicit
`panic!("Unknown opcode")` arms of the decode `match`, and the implicit
slice-index panics (`memory`, `stack`, `key` accessed out of range). -/
inductive EmuErr where
  | unknownOpcode (op : Nat)
  | indexOutOfBounds
  deriving DecidableEq

/-- The `FONTSET` constant (80 bytes, 16 glyphs of 5 bytes). -/
def FONTSET : List Nat :=
  [0xF0, 0x90, 0x90, 0x90, 0xF0,
   0x20, 0x60, 0x20, 0x20, 0x70,
   0xF0, 0x10, 0xF0, 0x80, 0xF0,
   0xF0, 0x10, 0xF0, 0x10, 0xF0,
   0x90, 0x90, 0xF0, 0x10, 0x10,
   0xF0, 0x80, 0xF0, 0x10, 0xF0,
   0xF0, 0x80, 0xF0, 0x90, 0xF0,
   0xF0, 0x10, 0x20, 0x40, 0x40,
   0xF0, 0x90, 0xF0, 0x90, 0xF0,
   0xF0, 0x90, 0xF0, 0x10, 0xF0,
   0xF0, 0x90, 0xF0, 0x90, 0x90,
   0xE0, 0x90, 0xE0, 0x90, 0xE0,
   0xF0, 0x80, 0x80, 0x80, 0xF0,
   0xE0, 0x90, 0x90, 0x90, 0xE0,
   0xF0, 0x80, 0xF0, 0x80, 0xF0,
   0xF0, 0x80, 0xF0, 0x80, 0x80]

/-- The machine state (`struct Chip8`).  Arrays are modelled as total
functions from `Nat`; the emulator only ever accesses them below their Rust
length (4096 / 16 / 16 / 2048), with every potentially out-of-range access
guarded and turned into an `EmuErr`. -/
structure Chip8 where
  opcode : Nat
  /-- `memory: [u8; 4096]` -/
  memory : Nat → Nat
  /-- `v: [u8; 16]`, registers V0–VF -/
  v : Nat → Nat
  /-- `i: u16`, index register -/
  i : Nat
  /-- `pc: u16`, program counter -/
  pc : Nat
  /-- `stack: [u16; 16]` -/
  stack : Nat → Nat
  /-- `sp: u16`, stack pointer -/
  sp : Nat
  /-- `delay_timer: u8` -/
  delay_timer : Nat
  /-- `sound_timer: u8` -/
  sound_timer : Nat
  /-- `gfx: [u8; 64 * 32]` -/
  gfx : Nat → Nat
  /-- `key: [u8; 16]` -/
  key : Nat → Nat
  /-- `draw_flag: bool` -/
  draw_flag : Bool
  /-- Modelled from the spec: §4.5 Randomness Source.  `rand::random()` is an
  external collaborator (the `rand` crate, not code of this repository);
  modelled as a pre-drawn stream of bytes consumed one per `CXNN` execution. -/
  rngSeq : Nat → Nat
  /-- Modelled from the spec: position in the `rngSeq` stream. -/
  rngIdx : Nat

/-- Pointwise update of a function-modelled array (one `arr[a] = b` store). -/
def upd (f : Nat → Nat) (a b : Nat) : Nat → Nat :=
  fun k => if k = a then b else f k

/-- A store `memory[a] = b`: Rust panics when `a ≥ 4096`. -/
def memWrite (m : Nat → Nat) (a b : Nat) : Except EmuErr (Nat → Nat) :=
  if a < 4096 then .ok (upd m a b) else .error .indexOutOfBounds

/-- A read `memory[a]`: Rust panics when `a ≥ 4096`. -/
def memRead (m : Nat → Nat) (a : Nat) : Except EmuErr Nat :=
  if a < 4096 then .ok (m a) else .error .indexOutOfBounds

/-- `Chip8::new()`: all numeric state zeroed, `pc = 0x200`, font copied to
addresses `0..80`. -/
def Chip8.new : Chip8 :=
  { opcode := 0
    memory := fun a => if a < 80 then FONTSET.getD a 0 else 0
    v := fun _ => 0
    i := 0
    pc := 0x200
    stack := fun _ => 0
    sp := 0
    delay_timer := 0
    sound_timer := 0
    gfx := fun _ => 0
    key := fun _ => 0
    draw_flag := false
    rngSeq := fun _ => 0
    rngIdx := 0 }

/-- Result of `Chip8::load`.  The Rust function returns
`std::io::Result<()>` and mutates `self`; the size check however does not use
the error channel but `panic!`s. `panicked` carries the machine state as it is
at the moment of the panic (the copy loop has not run). -/
inductive LoadResult where
  | ok (c : Chip8)
  | panicked (c : Chip8)

/-- The ROM copy loop of `Chip8::load`:
`for (i, &byte) in buffer.iter().enumerate() { self.memory[i + 512] = byte; }`
(started at `base = 512`). -/
def writeBytes (mem : Nat → Nat) (base : Nat) : List Nat → (Nat → Nat)
  | [] => mem
  | b :: rest => writeBytes (upd mem base b) (base + 1) rest

/-- `Chip8::load`, after the (external) file read produced `buffer`:
`if rom_size > (4096 - 512) { panic!("ROM too large to fit in memory"); }`
then the copy loop. -/
def Chip8.load (c : Chip8) (buffer : List Nat) : LoadResult :=
  if 4096 - 512 < buffer.length then .panicked c
  else .ok { c with memory := writeBytes c.memory 512 buffer }

/-- Inner pixel loop of `DXYN` (`for xline in 0..8`) for one sprite row byte.
The accumulator carries the pixel surface and the running `VF` value; `yy`
is `y + yline`.  The source guards with `if idx < self.gfx.len()` (2048), so
an index beyond the flat surface is skipped without wrapping. -/
def drawX (pixel x yy : Nat) : Nat → Nat → (Nat → Nat) × Nat → (Nat → Nat) × Nat
  | 0, _, acc => acc
  | n + 1, xl, acc =>
    if pixel &&& (0x80 >>> xl) ≠ 0 then
      (if x + xl + yy * 64 < 2048 then
        drawX pixel x yy n (xl + 1)
          (upd acc.1 (x + xl + yy * 64) (acc.1 (x + xl + yy * 64) ^^^ 1),
           if acc.1 (x + xl + yy * 64) = 1 then 1 else acc.2)
      else drawX pixel x yy n (xl + 1) acc)
    else drawX pixel x yy n (xl + 1) acc

/-- Row loop of `DXYN` (`for yline in 0..height`).  Reading the sprite byte
`memory[(i + yline) as usize]` panics when the index is ≥ 4096; the
`% 65536` mirrors the `u16` addition `self.i + yline`. -/
def drawY (mem : Nat → Nat) (i x y : Nat) :
    Nat → Nat → (Nat → Nat) × Nat → Except EmuErr ((Nat → Nat) × Nat)
  | 0, _, acc => .ok acc
  | n + 1, yl, acc =>
    if (i + yl) % 65536 < 4096 then
      drawY mem i x y n (yl + 1) (drawX (mem ((i + yl) % 65536)) x (y + yl) 8 0 acc)
    else .error .indexOutOfBounds

/-- `FX55` store loop: `self.memory[(self.i as usize) + i] = self.v[i]` for
`i = 0..=x` (the fuel counts the registers still to store, `k` is the current
register index; the address arithmetic is on `usize`, so no 16-bit wrap). -/
def dumpRegs (v : Nat → Nat) (base : Nat) :
    Nat → Nat → (Nat → Nat) → Except EmuErr (Nat → Nat)
  | 0, _, mem => .ok mem
  | n + 1, k, mem =>
    match memWrite mem (base + k) (v k) with
    | .error e => .error e
    | .ok m' => dumpRegs v base n (k + 1) m'

/-- `FX65` load loop: `self.v[i] = self.memory[(self.i as usize) + i]` for
`i = 0..=x`. -/
def loadRegs (mem : Nat → Nat) (base : Nat) :
    Nat → Nat → (Nat → Nat) → Except EmuErr (Nat → Nat)
  | 0, _, v => .ok v
  | n + 1, k, v =>
    match memRead mem (base + k) with
    | .error e => .error e
    | .ok b => loadRegs mem base n (k + 1) (upd v k b)

/-- `FX0A` key scan (`for i in 0..16`): every pressed key overwrites the
remembered index, so the result is the highest-indexed pressed key (`none`
when no key is pressed). -/
def scanKeys (key : Nat → Nat) : Nat → Nat → Option Nat → Option Nat
  | 0, _, r => r
  | n + 1, k, r => scanKeys key n (k + 1) (if key k ≠ 0 then some k else r)

/-- The timer block at the end of `emulate_cycle`: each timer is decremented
when positive, left at zero otherwise. -/
def tickTimers (c : Chip8) : Chip8 :=
  { c with
    delay_timer := if 0 < c.delay_timer then c.delay_timer - 1 else c.delay_timer
    sound_timer := if 0 < c.sound_timer then c.sound_timer - 1 else c.sound_timer }

/-- The decode-dispatch `match` of `emulate_cycle`, operating on the already
fetched opcode `op` (the caller has stored it into `c.opcode`; the match arms
only use the fetched value itself).  The returned `Bool` is `true` exactly
when the Rust code takes the early `return` inside the `FX0A` arm (no key
pressed), which skips the timer block. -/
def Chip8.execOpcode (c : Chip8) (op : Nat) : Except EmuErr (Chip8 × Bool) :=
  if op &&& 0xF000 = 0x0000 then
    -- sub-classified by the trailing nibble only
    if op &&& 0x000F = 0x0000 then
      -- 00E0: clear screen
      .ok ({ c with
              gfx := fun _ => 0
              draw_flag := true
              pc := (c.pc + 2) % 65536 }, false)
    else if op &&& 0x000F = 0x000E then
      -- 00EE: return from subroutine; `self.sp -= 1` on `u16` wraps in release
      -- mode, after which `stack[sp]` panics when the pointer is out of range
      (if (c.sp + 65535) % 65536 < 16 then
        .ok ({ c with
                sp := (c.sp + 65535) % 65536
                pc := (c.stack ((c.sp + 65535) % 65536) + 2) % 65536 }, false)
      else .error .indexOutOfBounds)
    else .error (.unknownOpcode op)
  else if op &&& 0xF000 = 0x1000 then
    -- 1NNN: jump
    .ok ({ c with pc := op &&& 0x0FFF }, false)
  else if op &&& 0xF000 = 0x2000 then
    -- 2NNN: call; `stack[sp]` panics when `sp ≥ 16`
    if c.sp < 16 then
      .ok ({ c with
              stack := upd c.stack c.sp c.pc
              sp := (c.sp + 1) % 65536
              pc := op &&& 0x0FFF }, false)
    else .error .indexOutOfBounds
  else if op &&& 0xF000 = 0x3000 then
    -- 3XNN: skip if VX == NN
    if c.v ((op &&& 0x0F00) >>> 8) = op &&& 0x00FF then
      .ok ({ c with pc := (c.pc + 4) % 65536 }, false)
    else .ok ({ c with pc := (c.pc + 2) % 65536 }, false)
  else if op &&& 0xF000 = 0x4000 then
    -- 4XNN: skip if VX != NN
    if c.v ((op &&& 0x0F00) >>> 8) ≠ op &&& 0x00FF then
      .ok ({ c with pc := (c.pc + 4) % 65536 }, false)
    else .ok ({ c with pc := (c.pc + 2) % 65536 }, false)
  else if op &&& 0xF000 = 0x5000 then
    -- 5XY0: skip if VX == VY (the trailing nibble is not inspected)
    if c.v ((op &&& 0x0F00) >>> 8) = c.v ((op &&& 0x00F0) >>> 4) then
      .ok ({ c with pc := (c.pc + 4) % 65536 }, false)
    else .ok ({ c with pc := (c.pc + 2) % 65536 }, false)
  else if op &&& 0xF000 = 0x6000 then
    -- 6XNN
    .ok ({ c with
            v := upd c.v ((op &&& 0x0F00) >>> 8) (op &&& 0x00FF)
            pc := (c.pc + 2) % 65536 }, false)
  else if op &&& 0xF000 = 0x7000 then
    -- 7XNN: wrapping_add
    .ok ({ c with
            v := upd c.v ((op &&& 0x0F00) >>> 8)
              ((c.v ((op &&& 0x0F00) >>> 8) + (op &&& 0x00FF)) % 256)
            pc := (c.pc + 2) % 65536 }, false)
  else if op &&& 0xF000 = 0x8000 then
    if op &&& 0x000F = 0x0000 then
      .ok ({ c with
              v := upd c.v ((op &&& 0x0F00) >>> 8) (c.v ((op &&& 0x00F0) >>> 4))
              pc := (c.pc + 2) % 65536 }, false)
    else if op &&& 0x000F = 0x0001 then
      .ok ({ c with
              v := upd c.v ((op &&& 0x0F00) >>> 8)
                (c.v ((op &&& 0x0F00) >>> 8) ||| c.v ((op &&& 0x00F0) >>> 4))
              pc := (c.pc + 2) % 65536 }, false)
    else if op &&& 0x000F = 0x0002 then
      .ok ({ c with
              v := upd c.v ((op &&& 0x0F00) >>> 8)
                (c.v ((op &&& 0x0F00) >>> 8) &&& c.v ((op &&& 0x00F0) >>> 4))
              pc := (c.pc + 2) % 65536 }, false)
    else if op &&& 0x000F = 0x0003 then
      .ok ({ c with
              v := upd c.v ((op &&& 0x0F00) >>> 8)
                (c.v ((op &&& 0x0F00) >>> 8) ^^^ c.v ((op &&& 0x00F0) >>> 4))
              pc := (c.pc + 2) % 65536 }, false)
    else if op &&& 0x000F = 0x0004 then
      -- 8XY4: overflowing_add; VF written first, then the result register
      .ok ({ c with
              v := upd (upd c.v 15
                  (if 255 < c.v ((op &&& 0x0F00) >>> 8) + c.v ((op &&& 0x00F0) >>> 4)
                   then 1 else 0))
                ((op &&& 0x0F00) >>> 8)
                ((c.v ((op &&& 0x0F00) >>> 8) + c.v ((op &&& 0x00F0) >>> 4)) % 256)
              pc := (c.pc + 2) % 65536 }, false)
    else if op &&& 0x000F = 0x0005 then
      -- 8XY5: overflowing_sub; VF = 0 iff borrow; VF written first
      .ok ({ c with
              v := upd (upd c.v 15
                  (if c.v ((op &&& 0x0F00) >>> 8) < c.v ((op &&& 0x00F0) >>> 4)
                   then 0 else 1))
                ((op &&& 0x0F00) >>> 8)
                ((c.v ((op &&& 0x0F00) >>> 8) + 256 - c.v ((op &&& 0x00F0) >>> 4)) % 256)
              pc := (c.pc + 2) % 65536 }, false)
    else if op &&& 0x000F = 0x0006 then
      -- 8XY6: VF = Vx & 1 written first; the shift then reads the updated array
      .ok ({ c with
              v := upd (upd c.v 15 (c.v ((op &&& 0x0F00) >>> 8) &&& 1))
                ((op &&& 0x0F00) >>> 8)
                ((upd c.v 15 (c.v ((op &&& 0x0F00) >>> 8) &&& 1)) ((op &&& 0x0F00) >>> 8) >>> 1)
              pc := (c.pc + 2) % 65536 }, false)
    else if op &&& 0x000F = 0x0007 then
      -- 8XY7: Vy - Vx
      .ok ({ c with
              v := upd (upd c.v 15
                  (if c.v ((op &&& 0x00F0) >>> 4) < c.v ((op &&& 0x0F00) >>> 8)
                   then 0 else 1))
                ((op &&& 0x0F00) >>> 8)
                ((c.v ((op &&& 0x00F0) >>> 4) + 256 - c.v ((op &&& 0x0F00) >>> 8)) % 256)
              pc := (c.pc + 2) % 65536 }, false)
    else if op &&& 0x000F = 0x000E then
      -- 8XYE: VF = top bit written first; the shift then reads the updated array
      .ok ({ c with
              v := upd (upd c.v 15 ((c.v ((op &&& 0x0F00) >>> 8) >>> 7) &&& 1))
                ((op &&& 0x0F00) >>> 8)
                (((upd c.v 15 ((c.v ((op &&& 0x0F00) >>> 8) >>> 7) &&& 1)) ((op &&& 0x0F00) >>> 8) <<< 1) % 256)
              pc := (c.pc + 2) % 65536 }, false)
    else .error (.unknownOpcode op)
  else if op &&& 0xF000 = 0x9000 then
    -- 9XY0: skip if VX != VY (the trailing nibble is not inspected)
    if c.v ((op &&& 0x0F00) >>> 8) ≠ c.v ((op &&& 0x00F0) >>> 4) then
      .ok ({ c with pc := (c.pc + 4) % 65536 }, false)
    else .ok ({ c with pc := (c.pc + 2) % 65536 }, false)
  else if op &&& 0xF000 = 0xA000 then
    -- ANNN
    .ok ({ c with
            i := op &&& 0x0FFF
            pc := (c.pc + 2) % 65536 }, false)
  else if op &&& 0xF000 = 0xB000 then
    -- BNNN: pc = NNN + V0
    .ok ({ c with pc := ((op &&& 0x0FFF) + c.v 0) % 65536 }, false)
  else if op &&& 0xF000 = 0xC000 then
    -- CXNN: Vx = random_byte & NN.  Modelled from the spec: §4.5, the random
    -- byte comes from the external Randomness Source stream `rngSeq`.
    .ok ({ c with
            v := upd c.v ((op &&& 0x0F00) >>> 8)
              ((c.rngSeq c.rngIdx % 256) &&& (op &&& 0x00FF))
            rngIdx := c.rngIdx + 1
            pc := (c.pc + 2) % 65536 }, false)
  else if op &&& 0xF000 = 0xD000 then
    -- DXYN: draw.  x and y are read before VF is cleared; the final VF is the
    -- collision accumulator of the loops.
    match drawY c.memory c.i (c.v ((op &&& 0x0F00) >>> 8)) (c.v ((op &&& 0x00F0) >>> 4))
        (op &&& 0x000F) 0 (c.gfx, 0) with
    | .error e => .error e
    | .ok gv =>
      .ok ({ c with
              v := upd c.v 15 gv.2
              gfx := gv.1
              draw_flag := true
              pc := (c.pc + 2) % 65536 }, false)
  else if op &&& 0xF000 = 0xE000 then
    if op &&& 0x00FF = 0x009E then
      -- EX9E: `key[v[x]]` panics when `v[x] ≥ 16`
      (if c.v ((op &&& 0x0F00) >>> 8) < 16 then
        (if c.key (c.v ((op &&& 0x0F00) >>> 8)) ≠ 0 then
          .ok ({ c with pc := (c.pc + 4) % 65536 }, false)
        else .ok ({ c with pc := (c.pc + 2) % 65536 }, false))
      else .error .indexOutOfBounds)
    else if op &&& 0x00FF = 0x00A1 then
      -- EXA1
      (if c.v ((op &&& 0x0F00) >>> 8) < 16 then
        (if c.key (c.v ((op &&& 0x0F00) >>> 8)) = 0 then
          .ok ({ c with pc := (c.pc + 4) % 65536 }, false)
        else .ok ({ c with pc := (c.pc + 2) % 65536 }, false))
      else .error .indexOutOfBounds)
    else .error (.unknownOpcode op)
  else if op &&& 0xF000 = 0xF000 then
    if op &&& 0x00FF = 0x0007 then
      .ok ({ c with
              v := upd c.v ((op &&& 0x0F00) >>> 8) c.delay_timer
              pc := (c.pc + 2) % 65536 }, false)
    else if op &&& 0x00FF = 0x000A then
      -- FX0A: wait for key; on `none` the Rust code takes `return` (pc not
      -- advanced, timer block skipped)
      (match scanKeys c.key 16 0 none with
      | none => .ok (c, true)
      | some k =>
        .ok ({ c with
                v := upd c.v ((op &&& 0x0F00) >>> 8) k
                pc := (c.pc + 2) % 65536 }, false))
    else if op &&& 0x00FF = 0x0015 then
      .ok ({ c with
              delay_timer := c.v ((op &&& 0x0F00) >>> 8)
              pc := (c.pc + 2) % 65536 }, false)
    else if op &&& 0x00FF = 0x0018 then
      .ok ({ c with
              sound_timer := c.v ((op &&& 0x0F00) >>> 8)
              pc := (c.pc + 2) % 65536 }, false)
    else if op &&& 0x00FF = 0x001E then
      -- FX1E: the comparison uses the (u16) sum; VF is written first, then
      -- `self.i += self.v[x]` reads the possibly updated register array
      .ok ({ c with
              v := upd c.v 15 (if 0xFFF < (c.i + c.v ((op &&& 0x0F00) >>> 8)) % 65536 then 1 else 0)
              i := (c.i + (upd c.v 15 (if 0xFFF < (c.i + c.v ((op &&& 0x0F00) >>> 8)) % 65536 then 1 else 0)) ((op &&& 0x0F00) >>> 8)) % 65536
              pc := (c.pc + 2) % 65536 }, false)
    else if op &&& 0x00FF = 0x0029 then
      -- FX29: font glyph address
      .ok ({ c with
              i := (c.v ((op &&& 0x0F00) >>> 8) * 5) % 65536
              pc := (c.pc + 2) % 65536 }, false)
    else if op &&& 0x00FF = 0x0033 then
      -- FX33: BCD; three guarded stores at i, i+1, i+2 (u16 address sums)
      (match memWrite c.memory c.i (c.v ((op &&& 0x0F00) >>> 8) / 100) with
      | .error e => .error e
      | .ok m1 =>
        match memWrite m1 ((c.i + 1) % 65536) (c.v ((op &&& 0x0F00) >>> 8) / 10 % 10) with
        | .error e => .error e
        | .ok m2 =>
          match memWrite m2 ((c.i + 2) % 65536) (c.v ((op &&& 0x0F00) >>> 8) % 10) with
          | .error e => .error e
          | .ok m3 =>
            .ok ({ c with
                    memory := m3
                    pc := (c.pc + 2) % 65536 }, false))
    else if op &&& 0x00FF = 0x0055 then
      -- FX55: dump V0..VX, then `i += x + 1`
      (match dumpRegs c.v c.i (((op &&& 0x0F00) >>> 8) + 1) 0 c.memory with
      | .error e => .error e
      | .ok m' =>
        .ok ({ c with
                memory := m'
                i := (c.i + ((op &&& 0x0F00) >>> 8) + 1) % 65536
                pc := (c.pc + 2) % 65536 }, false))
    else if op &&& 0x00FF = 0x0065 then
      -- FX65: load V0..VX, then `i += x + 1`
      (match loadRegs c.memory c.i (((op &&& 0x0F00) >>> 8) + 1) 0 c.v with
      | .error e => .error e
      | .ok v' =>
        .ok ({ c with
                v := v'
                i := (c.i + ((op &&& 0x0F00) >>> 8) + 1) % 65536
                pc := (c.pc + 2) % 65536 }, false))
    else .error (.unknownOpcode op)
  else .error (.unknownOpcode op)

/-- `Chip8::emulate_cycle`: fetch (two guarded memory reads, big-endian
combine), store the opcode, dispatch, then run the timer block — unless the
dispatch took the early `return` of the `FX0A` arm. -/
def Chip8.emulate_cycle (c : Chip8) : Except EmuErr Chip8 :=
  if c.pc < 4096 then
    if c.pc + 1 < 4096 then
      match Chip8.execOpcode
          { c with opcode := (c.memory c.pc <<< 8) ||| c.memory (c.pc + 1) }
          ((c.memory c.pc <<< 8) ||| c.memory (c.pc + 1)) with
      | .error e => .error e
      | .ok cr => if cr.2 then .ok cr.1 else .ok (tickTimers cr.1)
    else .error .indexOutOfBounds
  else .error .indexOutOfBounds

/-- The state after a successful dispatch (identity on error); used to name
concrete successor states in closed statements. -/
def stepOk (c : Chip8) (op : Nat) : Chip8 :=
  match Chip8.execOpcode c op with
  | .ok p => p.1
  | .error _ => c

/-- The state after a successful full cycle (identity on error). -/
def cycleOk (c : Chip8) : Chip8 :=
  match Chip8.emulate_cycle c with
  | .ok c' => c'
  | .error _ => c

/-- The state after a successful load (identity on panic). -/
def loadOk (c : Chip8) (buffer : List Nat) : Chip8 :=
  match Chip8.load c buffer with
  | .ok c' => c'
  | .panicked c' => c'

/-! ## Basic facts about `upd` -/

theorem upd_same (f : Nat → Nat) (a b : Nat) : upd f a b a = b := by
  simp [upd]

theorem upd_ne (f : Nat → Nat) (a b k : Nat) (h : k ≠ a) : upd f a b k = f k := by
  simp [upd, h]

/-! ## C4 — `8XY5` result and borrow flag -/

/-- State used to refute C4: `VF = 5`, `V0 = 3`. -/
def c4state : Chip8 :=
  { Chip8.new with v := fun k => if k = 15 then 5 else if k = 0 then 3 else 0 }

/-- C4 counterexample: executing `8F05` (result register X = 0xF) with
`VF = 5`, `V0 = 3` leaves `VF = 2` (the 8-bit difference), not the claimed
borrow flag 1 (5 ≥ 3, no borrow): the flag store is overwritten by the result
store when X = 0xF. -/
theorem c4_counterexample :
    (stepOk c4state 0x8F05).v 15 = 2 ∧ c4state.v 15 = 5 ∧ c4state.v 0 = 3 :=
  ⟨rfl, rfl, rfl⟩

/-- C4 (amended): for X ≠ 0xF, `8XY5` leaves the result register at
`(a - b) mod 256` and `VF = 0` iff `a < b`, else `VF = 1`; when X = 0xF the
flag store is immediately overwritten by the result store. -/
theorem c4_theorem (c : Chip8) (op a b : Nat) (c' : Chip8) (fl : Bool)
    (hf : op &&& 0xF000 = 0x8000) (hn : op &&& 0x000F = 0x0005)
    (hX : (op &&& 0x0F00) >>> 8 ≠ 15)
    (ha : c.v ((op &&& 0x0F00) >>> 8) = a) (hb : c.v ((op &&& 0x00F0) >>> 4) = b)
    (ha8 : a < 256) (hb8 : b < 256)
    (h : Chip8.execOpcode c op = .ok (c', fl)) :
    c'.v ((op &&& 0x0F00) >>> 8) = (a + 256 - b) % 256 ∧
    c'.v 15 = (if a < b then 0 else 1) ∧
    c'.pc = (c.pc + 2) % 65536 := by
  unfold Chip8.execOpcode at h
  rw [hf, hn] at h
  norm_num at h
  obtain ⟨hc, -⟩ := h
  subst hc
  refine ⟨?_, ?_, rfl⟩
  · dsimp only
    rw [upd_same, ha, hb]
  · dsimp only
    rw [upd_ne _ _ _ _ (Ne.symm hX), upd_same, ha, hb]

/-- Witness state for C4: `V1 = 5`, `V0 = 7`. -/
def c4wstate : Chip8 :=
  { Chip8.new with v := fun k => if k = 1 then 5 else if k = 0 then 7 else 0 }

/-- C4 witness: `8105` with `V1 = 5`, `V0 = 7` (borrow) gives `V1 = 254`. -/
theorem c4_witness : (stepOk c4wstate 0x8105).v 1 = 254 :=
  (c4_theorem c4wstate 0x8105 5 7 (stepOk c4wstate 0x8105) false rfl rfl
    (by decide) rfl rfl (by norm_num) (by norm_num) rfl).1

/-! ## C8 — oversized ROM handling in `Chip8::load` -/

/-- C8 counterexample: loading a 3600-byte ROM makes `Chip8::load` take the
`panic!("ROM too large to fit in memory")` path — a process crash, not a
recoverable error value surfaced through the function's `io::Result` return
channel as the claim states. -/
theorem c8_counterexample :
    Chip8.load Chip8.new (List.replicate 3600 1) = .panicked Chip8.new := by
  unfold Chip8.load
  rw [if_pos (by rw [List.length_replicate]; norm_num)]

/-- C8 (amended): for every ROM longer than 3584 bytes, `load` halts with the
ROM-too-large panic (a crash, not a recoverable error value); the panic fires
before the copy loop, so the machine state carried at the panic is exactly the
input state (no mutation happened). -/
theorem c8_theorem (c : Chip8) (buffer : List Nat) (h : 3584 < buffer.length) :
    Chip8.load c buffer = .panicked c := by
  unfold Chip8.load
  rw [if_pos (show 4096 - 512 < buffer.length from h)]

/-- C8 witness: the 3585-byte ROM of the spec scenario. -/
theorem c8_witness :
    Chip8.load Chip8.new (List.replicate 3585 0) = .panicked Chip8.new :=
  c8_theorem Chip8.new (List.replicate 3585 0)
    (by rw [List.length_replicate]; norm_num)

/-! ## C10 — `DXYN` always sets the display-changed flag -/

/-- C10: every completed `DXYN` dispatch sets `draw_flag`, unconditionally;
in particular the height-0 draw `D000` from the fresh machine completes,
sets the flag, and changes no pixel, so a set flag does not imply the surface
changed. -/
theorem c10_theorem :
    (∀ (c : Chip8) (op : Nat) (c' : Chip8) (fl : Bool),
        op &&& 0xF000 = 0xD000 → Chip8.execOpcode c op = .ok (c', fl) →
        c'.draw_flag = true) ∧
    Chip8.execOpcode Chip8.new 0xD000 = .ok (stepOk Chip8.new 0xD000, false) ∧
    (stepOk Chip8.new 0xD000).draw_flag = true ∧
    (stepOk Chip8.new 0xD000).gfx = Chip8.new.gfx := by
  refine ⟨?_, rfl, rfl, rfl⟩
  intro c op c' fl hf h
  unfold Chip8.execOpcode at h
  rw [hf] at h
  norm_num at h
  split at h
  · exact absurd h (by simp)
  · simp only [Except.ok.injEq, Prod.mk.injEq] at h
    obtain ⟨hc, -⟩ := h
    subst hc
    rfl

/-- C10 witness: the universal part applied to the concrete height-0 draw. -/
theorem c10_witness : (stepOk Chip8.new 0xD000).draw_flag = true :=
  c10_theorem.1 Chip8.new 0xD000 (stepOk Chip8.new 0xD000) false rfl rfl

/-! ## C1 — `DXYN` out-of-bounds policy -/

/-- When even the smallest flat index `x + yy*64` of a row is ≥ 2048, the
inner pixel loop changes nothing. -/
theorem drawX_oob (pixel x yy : Nat) (hmin : 2048 ≤ x + yy * 64) :
    ∀ (n xl : Nat) (acc : (Nat → Nat) × Nat), drawX pixel x yy n xl acc = acc := by
  intro n
  induction n with
  | zero => intro xl acc; rfl
  | succ n ih =>
    intro xl acc
    simp only [drawX]
    rw [if_neg (show ¬ x + xl + yy * 64 < 2048 by omega), ite_self]
    exact ih (xl + 1) acc

/-- When the smallest flat index `x + y*64` of the whole sprite is ≥ 2048, a
completed row loop returns its accumulator unchanged. -/
theorem drawY_oob (mem : Nat → Nat) (i x y : Nat) (hmin : 2048 ≤ x + y * 64) :
    ∀ (n yl : Nat) (acc res : (Nat → Nat) × Nat),
      drawY mem i x y n yl acc = .ok res → res = acc := by
  intro n
  induction n with
  | zero =>
    intro yl acc res h
    simp only [drawY, Except.ok.injEq] at h
    exact h.symm
  | succ n ih =>
    intro yl acc res h
    simp only [drawY] at h
    split at h
    · have hrow : drawX (mem ((i + yl) % 65536)) x (y + yl) 8 0 acc = acc := by
        have hexp : (y + yl) * 64 = y * 64 + yl * 64 := by ring
        exact drawX_oob _ _ _ (by omega) 8 0 acc
      rw [hrow] at h
      exact ih (yl + 1) acc res h
    · exact absurd h (by simp)

/-- State used for the C1 bleed counterexample: `V0 = 70`, `V1 = 0`,
`I = 0x300`, sprite byte `0x80` at `0x300`. -/
def c1state : Chip8 :=
  { Chip8.new with
      v := fun k => if k = 0 then 70 else 0
      i := 0x300
      memory := upd Chip8.new.memory 0x300 0x80 }

/-- C1 counterexample: drawing `D011` at `(Vx, Vy) = (70, 0)` — an
x-coordinate ≥ 64 — alters pixel 70 of the flat surface (it bleeds into row 1
instead of being dropped), contradicting the claim that such a pixel alters
no pixel of the surface. -/
theorem c1_counterexample :
    (stepOk c1state 0xD011).gfx 70 = 1 ∧ c1state.gfx 70 = 0 ∧
    c1state.v 0 = 70 ∧ c1state.v 1 = 0 :=
  ⟨rfl, rfl, rfl, rfl⟩

/-- C1 (amended): a sprite pixel is dropped exactly when its flat row-major
index `x + xline + (y + yline)*64` is ≥ 2048.  Universally: when even the
smallest flat index `x + y*64` is ≥ 2048 (in particular whenever `y ≥ 32`),
a completed draw alters no pixel and reports no collision (`VF = 0`).
Concretely: a pixel with x-coordinate 70 ≥ 64 and flat index 70 < 2048 is
drawn at flat index 70 (bleeding into the next row) and is not wrapped to
column 70 mod 64 = 6. -/
theorem c1_theorem :
    (∀ (c : Chip8) (op : Nat) (c' : Chip8) (fl : Bool),
        op &&& 0xF000 = 0xD000 →
        2048 ≤ c.v ((op &&& 0x0F00) >>> 8) + c.v ((op &&& 0x00F0) >>> 4) * 64 →
        Chip8.execOpcode c op = .ok (c', fl) →
        (∀ k, c'.gfx k = c.gfx k) ∧ c'.v 15 = 0) ∧
    ((stepOk c1state 0xD011).gfx 70 = 1 ∧ (stepOk c1state 0xD011).gfx 6 = 0 ∧
      c1state.v 0 = 70) := by
  refine ⟨?_, rfl, rfl, rfl⟩
  intro c op c' fl hf hmin h
  unfold Chip8.execOpcode at h
  rw [hf] at h
  norm_num at h
  split at h
  · exact absurd h (by simp)
  · next gv heq =>
    have hgv : gv = (c.gfx, 0) := drawY_oob _ _ _ _ hmin _ 0 _ gv heq
    subst hgv
    simp only [Except.ok.injEq, Prod.mk.injEq] at h
    obtain ⟨hc, -⟩ := h
    subst hc
    refine ⟨fun k => rfl, ?_⟩
    dsimp only
    exact upd_same _ _ _

/-- Witness state for C1's universal part: `V1 = 32` (so `y = 32`, every
flat index ≥ 2048), sprite byte `0xFF` at `0x300`. -/
def c1wstate : Chip8 :=
  { Chip8.new with
      v := fun k => if k = 1 then 32 else 0
      i := 0x300
      memory := upd Chip8.new.memory 0x300 0xFF }

/-- C1 witness: a draw whose every pixel lies below the surface leaves
pixel 0 unchanged. -/
theorem c1_witness : (stepOk c1wstate 0xD011).gfx 0 = c1wstate.gfx 0 :=
  (c1_theorem.1 c1wstate 0xD011 (stepOk c1wstate 0xD011) false rfl (by decide)
    rfl).1 0

/-! ## C5 — `FX0A` wait-for-key semantics -/

/-- A key scan over a range of unpressed keys returns its seed. -/
theorem scanKeys_all_zero (key : Nat → Nat) :
    ∀ (n k : Nat) (r : Option Nat), (∀ j, k ≤ j → j < k + n → key j = 0) →
      scanKeys key n k r = r := by
  intro n
  induction n with
  | zero => intro k r _; rfl
  | succ n ih =>
    intro k r h
    simp only [scanKeys]
    rw [if_neg (fun hk => hk (h k le_rfl (by omega)))]
    exact ih (k + 1) r (fun j h1 h2 => h j (by omega) (by omega))

/-- A key scan that returns `some m` found `m` pressed with every
higher-indexed key in range unpressed — unless the result was already the
seed and the whole scanned range is unpressed. -/
theorem scanKeys_some (key : Nat → Nat) :
    ∀ (n k : Nat) (r : Option Nat) (m : Nat), scanKeys key n k r = some m →
      (key m ≠ 0 ∧ k ≤ m ∧ m < k + n ∧ ∀ j, m < j → j < k + n → key j = 0) ∨
      (r = some m ∧ ∀ j, k ≤ j → j < k + n → key j = 0) := by
  intro n
  induction n with
  | zero =>
    intro k r m h
    right
    exact ⟨h, fun j h1 h2 => absurd h2 (by omega)⟩
  | succ n ih =>
    intro k r m h
    simp only [scanKeys] at h
    rcases ih (k + 1) _ m h with ⟨h1, h2, h3, h4⟩ | ⟨h1, h2⟩
    · exact Or.inl ⟨h1, by omega, by omega, fun j hj1 hj2 => h4 j hj1 (by omega)⟩
    · by_cases hk : key k ≠ 0
      · rw [if_pos hk] at h1
        injection h1 with h1'
        subst h1'
        exact Or.inl ⟨hk, le_rfl, by omega, fun j hj1 hj2 => h2 j (by omega) (by omega)⟩
      · rw [if_neg hk] at h1
        refine Or.inr ⟨h1, fun j hj1 hj2 => ?_⟩
        by_cases hjk : j = k
        · subst hjk; exact not_ne_iff.mp hk
        · exact h2 j (by omega) (by omega)

/-- C5: with no key pressed, `FX0A` returns the state unchanged without
advancing `pc` (the early-return flag is set); with a key pressed, the scan
result `m` — the highest-indexed pressed key — is stored in `Vx` and `pc`
advances by exactly 2. -/
theorem c5_theorem (c : Chip8) (op : Nat)
    (hf : op &&& 0xF000 = 0xF000) (hb : op &&& 0x00FF = 0x000A) :
    ((∀ j, j < 16 → c.key j = 0) → Chip8.execOpcode c op = .ok (c, true)) ∧
    (∀ (c' : Chip8) (fl : Bool) (m : Nat),
        Chip8.execOpcode c op = .ok (c', fl) →
        scanKeys c.key 16 0 none = some m →
        fl = false ∧ c'.pc = (c.pc + 2) % 65536 ∧
        c'.v ((op &&& 0x0F00) >>> 8) = m ∧ m < 16 ∧ c.key m ≠ 0 ∧
        (∀ j, j < 16 → c.key j ≠ 0 → j ≤ m)) := by
  constructor
  · intro hz
    unfold Chip8.execOpcode
    rw [hf, hb]
    norm_num
    rw [scanKeys_all_zero c.key 16 0 none (fun j h1 h2 => hz j (by omega))]
  · intro c' fl m h hm
    unfold Chip8.execOpcode at h
    rw [hf, hb] at h
    norm_num at h
    rw [hm] at h
    simp only [Except.ok.injEq, Prod.mk.injEq] at h
    obtain ⟨hc, hfl⟩ := h
    subst hc
    rcases scanKeys_some c.key 16 0 none m hm with ⟨h1, -, h3, h4⟩ | ⟨h1, -⟩
    · refine ⟨hfl.symm, rfl, ?_, by omega, h1, ?_⟩
      · dsimp only
        exact upd_same _ _ _
      · intro j hj hp
        by_contra hlt
        exact hp (h4 j (by omega) (by omega))
    · exact absurd h1 (by simp)

/-- Witness state for C5: keys 3 and 7 pressed. -/
def c5state : Chip8 :=
  { Chip8.new with key := fun k => if k = 3 then 1 else if k = 7 then 1 else 0 }

/-- C5 witness: with keys 3 and 7 pressed, `F00A` stores the highest pressed
key, 7, into `V0`. -/
theorem c5_witness : (stepOk c5state 0xF00A).v 0 = 7 :=
  ((c5_theorem c5state 0xF00A rfl rfl).2 (stepOk c5state 0xF00A) false 7 rfl
    rfl).2.2.1

/-! ## C6 — `FX55` / `FX65` round trip -/

/-- A completed register dump writes `v j` to `base + j` for every register
`j` in range and leaves all other memory cells unchanged. -/
theorem dumpRegs_ok_pointwise (v : Nat → Nat) (base : Nat) :
    ∀ (n k : Nat) (mem m' : Nat → Nat), dumpRegs v base n k mem = .ok m' →
      (∀ j, k ≤ j → j < k + n → m' (base + j) = v j) ∧
      (∀ a, (a < base + k ∨ base + k + n ≤ a) → m' a = mem a) := by
  intro n
  induction n with
  | zero =>
    intro k mem m' h
    simp only [dumpRegs, Except.ok.injEq] at h
    subst h
    exact ⟨fun j h1 h2 => absurd h2 (by omega), fun a _ => rfl⟩
  | succ n ih =>
    intro k mem m' h
    simp only [dumpRegs] at h
    split at h
    · exact absurd h (by simp)
    · next m2 heq =>
      unfold memWrite at heq
      split at heq
      · simp only [Except.ok.injEq] at heq
        subst heq
        obtain ⟨ih1, ih2⟩ := ih (k + 1) _ m' h
        constructor
        · intro j h1 h2
          by_cases hj : j = k
          · subst hj
            rw [ih2 (base + j) (by omega)]
            exact upd_same _ _ _
          · exact ih1 j (by omega) (by omega)
        · intro a ha
          rw [ih2 a (by omega)]
          exact upd_ne _ _ _ _ (by omega)
      · exact absurd heq (by simp)

/-- A completed register load reads `mem (base + j)` into register `j` for
every `j` in range and leaves all other registers unchanged. -/
theorem loadRegs_ok_pointwise (mem : Nat → Nat) (base : Nat) :
    ∀ (n k : Nat) (v v' : Nat → Nat), loadRegs mem base n k v = .ok v' →
      (∀ j, k ≤ j → j < k + n → v' j = mem (base + j)) ∧
      (∀ j, j < k ∨ k + n ≤ j → v' j = v j) := by
  intro n
  induction n with
  | zero =>
    intro k v v' h
    simp only [loadRegs, Except.ok.injEq] at h
    subst h
    exact ⟨fun j h1 h2 => absurd h2 (by omega), fun j _ => rfl⟩
  | succ n ih =>
    intro k v v' h
    simp only [loadRegs] at h
    split at h
    · exact absurd h (by simp)
    · next b heq =>
      unfold memRead at heq
      split at heq
      · simp only [Except.ok.injEq] at heq
        obtain ⟨ih1, ih2⟩ := ih (k + 1) _ v' h
        constructor
        · intro j h1 h2
          by_cases hj : j = k
          · subst hj
            rw [ih2 j (by omega), upd_same, heq]
          · exact ih1 j (by omega) (by omega)
        · intro j hj
          rw [ih2 j (by omega)]
          exact upd_ne _ _ _ _ (by omega)
      · exact absurd heq (by simp)

/-- C6: `FX55` from index `I0` (with `I0 + X + 1 ≤ 4096`) followed — after
resetting the index register to `I0` — by `FX65` with the same X restores
`V0..VX` to their pre-dump values, and each of the two instructions leaves
the index register at `I0 + X + 1`. -/
theorem c6_theorem (c : Chip8) (op55 op65 : Nat) {c1 c2 : Chip8} {f1 f2 : Bool}
    (h55f : op55 &&& 0xF000 = 0xF000) (h55b : op55 &&& 0x00FF = 0x0055)
    (h65f : op65 &&& 0xF000 = 0xF000) (h65b : op65 &&& 0x00FF = 0x0065)
    (hxx : (op65 &&& 0x0F00) >>> 8 = (op55 &&& 0x0F00) >>> 8)
    (hbound : c.i + ((op55 &&& 0x0F00) >>> 8) + 1 ≤ 4096)
    (h1 : Chip8.execOpcode c op55 = .ok (c1, f1))
    (h2 : Chip8.execOpcode { c1 with i := c.i } op65 = .ok (c2, f2)) :
    c1.i = c.i + ((op55 &&& 0x0F00) >>> 8) + 1 ∧
    c2.i = c.i + ((op55 &&& 0x0F00) >>> 8) + 1 ∧
    (∀ k, k ≤ (op55 &&& 0x0F00) >>> 8 → c2.v k = c.v k) := by
  unfold Chip8.execOpcode at h1
  rw [h55f, h55b] at h1
  norm_num at h1
  split at h1
  · exact absurd h1 (by simp)
  · next m' heq1 =>
    simp only [Except.ok.injEq, Prod.mk.injEq] at h1
    obtain ⟨hc1, -⟩ := h1
    subst hc1
    unfold Chip8.execOpcode at h2
    rw [h65f, h65b, hxx] at h2
    norm_num at h2
    split at h2
    · exact absurd h2 (by simp)
    · next v' heq2 =>
      simp only [Except.ok.injEq, Prod.mk.injEq] at h2
      obtain ⟨hc2, -⟩ := h2
      subst hc2
      obtain ⟨hd1, -⟩ :=
        dumpRegs_ok_pointwise c.v c.i (((op55 &&& 0x0F00) >>> 8) + 1) 0 _ m' heq1
      obtain ⟨hl1, -⟩ :=
        loadRegs_ok_pointwise m' c.i (((op55 &&& 0x0F00) >>> 8) + 1) 0 _ v' heq2
      refine ⟨?_, ?_, ?_⟩
      · dsimp only
        exact Nat.mod_eq_of_lt (by omega)
      · dsimp only
        exact Nat.mod_eq_of_lt (by omega)
      · intro k hk
        dsimp only
        rw [hl1 k (by omega) (by omega), hd1 k (by omega) (by omega)]

/-- Witness state for C6: `V0..V15 = 100..115`, `I = 0x400`. -/
def c6state : Chip8 :=
  { Chip8.new with
      v := fun k => if k < 16 then 100 + k else 0
      i := 0x400 }

/-- C6 witness: `F355` then (index reset) `F365` restores `V2`. -/
theorem c6_witness :
    (stepOk { stepOk c6state 0xF355 with i := c6state.i } 0xF365).v 2 =
      c6state.v 2 :=
  (c6_theorem c6state 0xF355 0xF365 rfl rfl rfl rfl rfl (by decide)
    rfl rfl).2.2 2 (by decide)

/-! ## C3 — timer tick and the `FX0A` early return -/


/-- Decomposition of the primary-family mask: `op &&& 0xF000` extracts bits
12–15, i.e. equals `(op / 4096 % 16) * 4096`. -/
theorem and_f000_eq (op : Nat) : op &&& 0xF000 = op / 4096 % 16 * 4096 := by
  have exp : op / 4096 % 16 * 4096 = ((op >>> 12) % 2 ^ 4) <<< 12 := by
    rw [Nat.shiftLeft_eq, Nat.shiftRight_eq_div_pow]
    norm_num
  apply Nat.eq_of_testBit_eq
  intro j
  rw [Nat.testBit_and, exp, Nat.testBit_shiftLeft, Nat.testBit_mod_two_pow,
    Nat.testBit_shiftRight]
  rcases Nat.lt_or_ge j 12 with hj | hj
  · have h1 : Nat.testBit 61440 j = false := by interval_cases j <;> decide
    simp [h1, Nat.not_le.mpr hj]
  · rcases Nat.lt_or_ge j 16 with hj2 | hj2
    · have h1 : Nat.testBit 61440 j = true := by interval_cases j <;> decide
      have h2 : 12 + (j - 12) = j := by omega
      simp [h1, h2, hj, show j - 12 < 4 by omega]
    · have h1 : Nat.testBit 61440 j = false := by
        apply Nat.testBit_lt_two_pow
        calc (61440:Nat) < 2 ^ 16 := by norm_num
          _ ≤ 2 ^ j := Nat.pow_le_pow_right (by norm_num) hj2
      simp [h1, show ¬ (j - 12 < 4) by omega]

/-- The trailing-byte mask is a mod: `op &&& 0x00FF = op % 256`. -/
theorem and_ff_eq (op : Nat) : op &&& 0x00FF = op % 256 := by
  have h := Nat.and_pow_two_sub_one_eq_mod op 8
  norm_num at h
  exact h

/-- The trailing-nibble mask is a mod: `op &&& 0x000F = op % 16`. -/
theorem and_f_eq (op : Nat) : op &&& 0x000F = op % 16 := by
  have h := Nat.and_pow_two_sub_one_eq_mod op 4
  norm_num at h
  exact h

set_option maxHeartbeats 2000000 in
/-- The dispatch reports an early return (`true` flag) only from the `FX0A`
arm with no key pressed, and then the state is returned unchanged. -/
theorem execOpcode_early_return (c : Chip8) (op : Nat) (c1 : Chip8)
    (h : Chip8.execOpcode c op = .ok (c1, true)) :
    op &&& 0xF000 = 0xF000 ∧ op &&& 0x00FF = 0x000A ∧ c1 = c ∧
    scanKeys c.key 16 0 none = none := by
  obtain ⟨q, hqlt, hq⟩ : ∃ q, q < 16 ∧ op &&& 0xF000 = q * 4096 :=
    ⟨_, Nat.mod_lt _ (by norm_num), and_f000_eq op⟩
  unfold Chip8.execOpcode at h
  rw [hq, and_f_eq, and_ff_eq] at h
  interval_cases q
  · norm_num at h
    repeat' split at h
    all_goals simp at h
  · norm_num at h
  · norm_num at h
    split at h <;> simp at h
  · norm_num at h
    split at h <;> simp at h
  · norm_num at h
    split at h <;> simp at h
  · norm_num at h
    split at h <;> simp at h
  · norm_num at h
  · norm_num at h
  · norm_num at h
    by_cases e0 : op % 16 = 0
    · rw [if_pos e0] at h; simp at h
    · rw [if_neg e0] at h
      by_cases e1 : op % 16 = 1
      · rw [if_pos e1] at h; simp at h
      · rw [if_neg e1] at h
        by_cases e2 : op % 16 = 2
        · rw [if_pos e2] at h; simp at h
        · rw [if_neg e2] at h
          by_cases e3 : op % 16 = 3
          · rw [if_pos e3] at h; simp at h
          · rw [if_neg e3] at h
            by_cases e4 : op % 16 = 4
            · rw [if_pos e4] at h; simp at h
            · rw [if_neg e4] at h
              by_cases e5 : op % 16 = 5
              · rw [if_pos e5] at h; simp at h
              · rw [if_neg e5] at h
                by_cases e6 : op % 16 = 6
                · rw [if_pos e6] at h; simp at h
                · rw [if_neg e6] at h
                  by_cases e7 : op % 16 = 7
                  · rw [if_pos e7] at h; simp at h
                  · rw [if_neg e7] at h
                    by_cases eE : op % 16 = 14
                    · rw [if_pos eE] at h; simp at h
                    · rw [if_neg eE] at h; simp at h
  · norm_num at h
    split at h <;> simp at h
  · norm_num at h
  · norm_num at h
  · norm_num at h
  · norm_num at h
    split at h <;> simp at h
  · norm_num at h
    repeat' split at h
    all_goals simp at h
  · norm_num at h
    by_cases f07 : op % 256 = 7
    · rw [if_pos f07] at h; simp at h
    · rw [if_neg f07] at h
      by_cases f0A : op % 256 = 10
      · rw [if_pos f0A] at h
        split at h
        · simp only [Except.ok.injEq, Prod.mk.injEq, and_true] at h
          exact ⟨by rw [hq], by rw [and_ff_eq]; omega, h.symm,
            by assumption⟩
        · simp at h
      · rw [if_neg f0A] at h
        by_cases f15 : op % 256 = 21
        · rw [if_pos f15] at h; simp at h
        · rw [if_neg f15] at h
          by_cases f18 : op % 256 = 24
          · rw [if_pos f18] at h; simp at h
          · rw [if_neg f18] at h
            by_cases f1E : op % 256 = 30
            · rw [if_pos f1E] at h; simp at h
            · rw [if_neg f1E] at h
              by_cases f29 : op % 256 = 41
              · rw [if_pos f29] at h; simp at h
              · rw [if_neg f29] at h
                by_cases f33 : op % 256 = 51
                · rw [if_pos f33] at h
                  repeat' split at h
                  all_goals simp at h
                · rw [if_neg f33] at h
                  by_cases f55 : op % 256 = 85
                  · rw [if_pos f55] at h
                    split at h <;> simp at h
                  · rw [if_neg f55] at h
                    by_cases f65 : op % 256 = 101
                    · rw [if_pos f65] at h
                      split at h <;> simp at h
                    · rw [if_neg f65] at h; simp at h

/-- State used to refute C3: `FX0A` fetched at `pc`, no key pressed, timers
positive. -/
def c3state : Chip8 :=
  { Chip8.new with
      memory := upd (upd Chip8.new.memory 0x200 0xF0) 0x201 0x0A
      delay_timer := 5
      sound_timer := 7 }

/-- C3 counterexample: a successful step executing `FX0A` with no key pressed
leaves the delay timer at 5 and the sound timer at 7 — the early `return`
skips the timer block, while the claim demands a decrement on every step. -/
theorem c3_counterexample :
    Chip8.emulate_cycle c3state = .ok (cycleOk c3state) ∧
    c3state.delay_timer = 5 ∧ (cycleOk c3state).delay_timer = 5 ∧
    c3state.sound_timer = 7 ∧ (cycleOk c3state).sound_timer = 7 :=
  ⟨rfl, rfl, rfl, rfl, rfl⟩

/-- C3 (amended): after a successful dispatch the timer block runs — each
timer decremented by one unit when positive, left at zero otherwise (the
`- 1` below is truncated subtraction) — except when the executed instruction
is `FX0A` with no key pressed: that step returns early, leaving the timers
(and the whole state, the opcode latch aside) unchanged. -/
theorem c3_theorem (c : Chip8) (op : Nat) (c1 : Chip8) (fl : Bool)
    (hpc : c.pc + 1 < 4096)
    (hop : (c.memory c.pc <<< 8) ||| c.memory (c.pc + 1) = op)
    (hexec : Chip8.execOpcode { c with opcode := op } op = .ok (c1, fl)) :
    Chip8.emulate_cycle c = .ok (if fl then c1 else tickTimers c1) ∧
    (fl = true → op &&& 0xF000 = 0xF000 ∧ op &&& 0x00FF = 0x000A ∧
      c1.delay_timer = c.delay_timer ∧ c1.sound_timer = c.sound_timer ∧
      c1.pc = c.pc) ∧
    (tickTimers c1).delay_timer = c1.delay_timer - 1 ∧
    (tickTimers c1).sound_timer = c1.sound_timer - 1 := by
  refine ⟨?_, ?_, ?_, ?_⟩
  · unfold Chip8.emulate_cycle
    rw [if_pos (show c.pc < 4096 by omega), if_pos hpc, hop, hexec]
    cases fl <;> rfl
  · intro hfl
    subst hfl
    obtain ⟨hf, hb, hc, -⟩ := execOpcode_early_return _ op c1 hexec
    refine ⟨hf, hb, ?_, ?_, ?_⟩ <;> rw [hc]
  · unfold tickTimers
    dsimp only
    split <;> omega
  · unfold tickTimers
    dsimp only
    split <;> omega

/-- Witness state for C3: `602A` fetched at `pc`, both timers positive. -/
def c3wstate : Chip8 :=
  { Chip8.new with
      memory := upd (upd Chip8.new.memory 0x200 0x60) 0x201 0x2A
      delay_timer := 5
      sound_timer := 7 }

/-- C3 witness: a step executing `602A` runs the timer block after dispatch. -/
theorem c3_witness :
    Chip8.emulate_cycle c3wstate =
      .ok (tickTimers (stepOk { c3wstate with opcode := 0x602A } 0x602A)) :=
  (c3_theorem c3wstate 0x602A (stepOk { c3wstate with opcode := 0x602A } 0x602A)
    false (by decide) rfl rfl).1

/-! ## C2 — which opcodes are fatal `UnknownOpcode`s -/

/-- A failed guarded store only ever reports an index panic. -/
theorem memWrite_error (m : Nat → Nat) (a b : Nat) (e : EmuErr)
    (h : memWrite m a b = .error e) : e = .indexOutOfBounds := by
  unfold memWrite at h
  split at h
  · simp at h
  · simp only [Except.error.injEq] at h
    exact h.symm

/-- A failed guarded read only ever reports an index panic. -/
theorem memRead_error (m : Nat → Nat) (a : Nat) (e : EmuErr)
    (h : memRead m a = .error e) : e = .indexOutOfBounds := by
  unfold memRead at h
  split at h
  · simp at h
  · simp only [Except.error.injEq] at h
    exact h.symm

/-- A failed sprite-row loop only ever reports an index panic. -/
theorem drawY_error (mem : Nat → Nat) (i x y : Nat) :
    ∀ (n yl : Nat) (acc : (Nat → Nat) × Nat) (e : EmuErr),
      drawY mem i x y n yl acc = .error e → e = .indexOutOfBounds := by
  intro n
  induction n with
  | zero => intro yl acc e h; simp [drawY] at h
  | succ n ih =>
    intro yl acc e h
    simp only [drawY] at h
    split at h
    · exact ih _ _ _ h
    · simp only [Except.error.injEq] at h
      exact h.symm

/-- A failed register dump only ever reports an index panic. -/
theorem dumpRegs_error (v : Nat → Nat) (base : Nat) :
    ∀ (n k : Nat) (mem : Nat → Nat) (e : EmuErr),
      dumpRegs v base n k mem = .error e → e = .indexOutOfBounds := by
  intro n
  induction n with
  | zero => intro k mem e h; simp [dumpRegs] at h
  | succ n ih =>
    intro k mem e h
    simp only [dumpRegs] at h
    split at h
    · next e' heq =>
        have he := memWrite_error _ _ _ _ heq
        simp only [Except.error.injEq] at h
        rw [← h]
        exact he
    · exact ih _ _ _ h

/-- A failed register load only ever reports an index panic. -/
theorem loadRegs_error (mem : Nat → Nat) (base : Nat) :
    ∀ (n k : Nat) (v : Nat → Nat) (e : EmuErr),
      loadRegs mem base n k v = .error e → e = .indexOutOfBounds := by
  intro n
  induction n with
  | zero => intro k v e h; simp [loadRegs] at h
  | succ n ih =>
    intro k v e h
    simp only [loadRegs] at h
    split at h
    · next e' heq =>
        have he := memRead_error _ _ _ heq
        simp only [Except.error.injEq] at h
        rw [← h]
        exact he
    · exact ih _ _ _ h

/-- The set of opcodes the decoder fails to match, written out along the
actual sub-classification of the source: family 0x0 is sub-classified by the
trailing nibble only, families 0x5 and 0x9 are not sub-classified at all,
family 0x8 by the trailing nibble, families 0xE and 0xF by the trailing
byte. -/
def unknownOpcodeSpec (op : Nat) : Prop :=
  (op &&& 0xF000 = 0x0000 ∧ op &&& 0x000F ≠ 0x0000 ∧ op &&& 0x000F ≠ 0x000E) ∨
  (op &&& 0xF000 = 0x8000 ∧ op &&& 0x000F ≠ 0x0000 ∧ op &&& 0x000F ≠ 0x0001 ∧
    op &&& 0x000F ≠ 0x0002 ∧ op &&& 0x000F ≠ 0x0003 ∧ op &&& 0x000F ≠ 0x0004 ∧
    op &&& 0x000F ≠ 0x0005 ∧ op &&& 0x000F ≠ 0x0006 ∧ op &&& 0x000F ≠ 0x0007 ∧
    op &&& 0x000F ≠ 0x000E) ∨
  (op &&& 0xF000 = 0xE000 ∧ op &&& 0x00FF ≠ 0x009E ∧ op &&& 0x00FF ≠ 0x00A1) ∨
  (op &&& 0xF000 = 0xF000 ∧ op &&& 0x00FF ≠ 0x0007 ∧ op &&& 0x00FF ≠ 0x000A ∧
    op &&& 0x00FF ≠ 0x0015 ∧ op &&& 0x00FF ≠ 0x0018 ∧ op &&& 0x00FF ≠ 0x001E ∧
    op &&& 0x00FF ≠ 0x0029 ∧ op &&& 0x00FF ≠ 0x0033 ∧ op &&& 0x00FF ≠ 0x0055 ∧
    op &&& 0x00FF ≠ 0x0065)

/-- C2 counterexample: the 0x5-family opcode `5121` has a nonzero trailing
nibble, which the claim says is a fatal `UnknownOpcode`; the code instead
executes the `5XY0` skip semantics (V1 = V2 here, so `pc` moves from 0x200
to 0x204). -/
theorem c2_counterexample :
    Chip8.execOpcode Chip8.new 0x5121 = .ok (stepOk Chip8.new 0x5121, false) ∧
    (stepOk Chip8.new 0x5121).pc = 0x204 :=
  ⟨rfl, rfl⟩

set_option maxHeartbeats 2000000 in
/-- C2 (amended): a dispatch halts with `UnknownOpcode` exactly for the
opcodes of `unknownOpcodeSpec` — family 0x0 with trailing nibble other than
0x0/0xE, family 0x8 with trailing nibble outside 0x0–0x7/0xE, family 0xE with
trailing byte outside {9E, A1}, family 0xF with trailing byte outside
{07, 0A, 15, 18, 1E, 29, 33, 55, 65}.  In particular every 0x5-family and
0x9-family opcode — whatever its trailing nibble — executes the skip
semantics and returns normally. -/
theorem c2_theorem :
    (∀ (c : Chip8) (op : Nat),
        Chip8.execOpcode c op = .error (.unknownOpcode op) ↔
          unknownOpcodeSpec op) ∧
    (∀ (c : Chip8) (op : Nat), op &&& 0xF000 = 0x5000 →
        ∃ c' : Chip8, Chip8.execOpcode c op = .ok (c', false)) ∧
    (∀ (c : Chip8) (op : Nat), op &&& 0xF000 = 0x9000 →
        ∃ c' : Chip8, Chip8.execOpcode c op = .ok (c', false)) := by
  refine ⟨?_, ?_, ?_⟩
  · intro c op
    constructor
    · intro h
      obtain ⟨q, hqlt, hq⟩ : ∃ q, q < 16 ∧ op &&& 0xF000 = q * 4096 :=
        ⟨_, Nat.mod_lt _ (by norm_num), and_f000_eq op⟩
      unfold Chip8.execOpcode at h
      rw [hq, and_f_eq, and_ff_eq] at h
      unfold unknownOpcodeSpec
      interval_cases q
      · norm_num at h
        by_cases e0 : op % 16 = 0
        · rw [if_pos e0] at h; simp at h
        · rw [if_neg e0] at h
          by_cases eE : op % 16 = 14
          · rw [if_pos eE] at h
            split at h <;> simp at h
          · exact Or.inl ⟨by rw [hq],
              by rw [and_f_eq]; exact e0, by rw [and_f_eq]; exact eE⟩
      · norm_num at h
        simp at h
      · norm_num at h
        split at h <;> simp at h
      · norm_num at h
        split at h <;> simp at h
      · norm_num at h
        split at h <;> simp at h
      · norm_num at h
        split at h <;> simp at h
      · norm_num at h
        simp at h
      · norm_num at h
        simp at h
      · norm_num at h
        by_cases e0 : op % 16 = 0
        · rw [if_pos e0] at h; simp at h
        · rw [if_neg e0] at h
          by_cases e1 : op % 16 = 1
          · rw [if_pos e1] at h; simp at h
          · rw [if_neg e1] at h
            by_cases e2 : op % 16 = 2
            · rw [if_pos e2] at h; simp at h
            · rw [if_neg e2] at h
              by_cases e3 : op % 16 = 3
              · rw [if_pos e3] at h; simp at h
              · rw [if_neg e3] at h
                by_cases e4 : op % 16 = 4
                · rw [if_pos e4] at h; simp at h
                · rw [if_neg e4] at h
                  by_cases e5 : op % 16 = 5
                  · rw [if_pos e5] at h; simp at h
                  · rw [if_neg e5] at h
                    by_cases e6 : op % 16 = 6
                    · rw [if_pos e6] at h; simp at h
                    · rw [if_neg e6] at h
                      by_cases e7 : op % 16 = 7
                      · rw [if_pos e7] at h; simp at h
                      · rw [if_neg e7] at h
                        by_cases eE : op % 16 = 14
                        · rw [if_pos eE] at h; simp at h
                        · refine Or.inr (Or.inl ⟨by rw [hq], ?_, ?_, ?_, ?_,
                            ?_, ?_, ?_, ?_, ?_⟩) <;> rw [and_f_eq]
                          · exact e0
                          · exact e1
                          · exact e2
                          · exact e3
                          · exact e4
                          · exact e5
                          · exact e6
                          · exact e7
                          · exact eE
      · norm_num at h
        split at h <;> simp at h
      · norm_num at h
        simp at h
      · norm_num at h
        simp at h
      · norm_num at h
        simp at h
      · norm_num at h
        split at h
        · next e heq =>
            have he := drawY_error _ _ _ _ _ _ _ _ heq
            subst he
            simp at h
        · simp at h
      · norm_num at h
        by_cases e9E : op % 256 = 158
        · rw [if_pos e9E] at h
          split at h
          · split at h <;> simp at h
          · simp at h
        · rw [if_neg e9E] at h
          by_cases eA1 : op % 256 = 161
          · rw [if_pos eA1] at h
            split at h
            · split at h <;> simp at h
            · simp at h
          · exact Or.inr (Or.inr (Or.inl ⟨by rw [hq],
              by rw [and_ff_eq]; exact e9E, by rw [and_ff_eq]; exact eA1⟩))
      · norm_num at h
        by_cases f07 : op % 256 = 7
        · rw [if_pos f07] at h; simp at h
        · rw [if_neg f07] at h
          by_cases f0A : op % 256 = 10
          · rw [if_pos f0A] at h
            split at h <;> simp at h
          · rw [if_neg f0A] at h
            by_cases f15 : op % 256 = 21
            · rw [if_pos f15] at h; simp at h
            · rw [if_neg f15] at h
              by_cases f18 : op % 256 = 24
              · rw [if_pos f18] at h; simp at h
              · rw [if_neg f18] at h
                by_cases f1E : op % 256 = 30
                · rw [if_pos f1E] at h; simp at h
                · rw [if_neg f1E] at h
                  by_cases f29 : op % 256 = 41
                  · rw [if_pos f29] at h; simp at h
                  · rw [if_neg f29] at h
                    by_cases f33 : op % 256 = 51
                    · rw [if_pos f33] at h
                      split at h
                      · next e heq =>
                          have he := memWrite_error _ _ _ _ heq
                          subst he
                          simp at h
                      · split at h
                        · next e heq =>
                            have he := memWrite_error _ _ _ _ heq
                            subst he
                            simp at h
                        · split at h
                          · next e heq =>
                              have he := memWrite_error _ _ _ _ heq
                              subst he
                              simp at h
                          · simp at h
                    · rw [if_neg f33] at h
                      by_cases f55 : op % 256 = 85
                      · rw [if_pos f55] at h
                        split at h
                        · next e heq =>
                            have he := dumpRegs_error _ _ _ _ _ _ heq
                            subst he
                            simp at h
                        · simp at h
                      · rw [if_neg f55] at h
                        by_cases f65 : op % 256 = 101
                        · rw [if_pos f65] at h
                          split at h
                          · next e heq =>
                              have he := loadRegs_error _ _ _ _ _ _ heq
                              subst he
                              simp at h
                          · simp at h
                        · refine Or.inr (Or.inr (Or.inr ⟨by rw [hq], ?_, ?_,
                            ?_, ?_, ?_, ?_, ?_, ?_, ?_⟩)) <;> rw [and_ff_eq]
                          · exact f07
                          · exact f0A
                          · exact f15
                          · exact f18
                          · exact f1E
                          · exact f29
                          · exact f33
                          · exact f55
                          · exact f65
    · intro hspec
      rcases hspec with ⟨h1, h2, h3⟩ | ⟨h1, h2, h3, h4, h5, h6, h7, h8, h9, h10⟩ |
        ⟨h1, h2, h3⟩ | ⟨h1, h2, h3, h4, h5, h6, h7, h8, h9, h10⟩
      · unfold Chip8.execOpcode
        rw [h1]
        norm_num
        rw [if_neg h2, if_neg h3]
      · unfold Chip8.execOpcode
        rw [h1]
        norm_num
        rw [if_neg h2, if_neg h3, if_neg h4, if_neg h5, if_neg h6, if_neg h7,
          if_neg h8, if_neg h9, if_neg h10]
      · unfold Chip8.execOpcode
        rw [h1]
        norm_num
        rw [if_neg h2, if_neg h3]
      · unfold Chip8.execOpcode
        rw [h1]
        norm_num
        rw [if_neg h2, if_neg h3, if_neg h4, if_neg h5, if_neg h6, if_neg h7,
          if_neg h8, if_neg h9, if_neg h10]
  · intro c op hf
    unfold Chip8.execOpcode
    rw [hf]
    norm_num
    by_cases hvv : c.v ((op &&& 0x0F00) >>> 8) = c.v ((op &&& 0x00F0) >>> 4)
    · rw [if_pos hvv]
      exact ⟨_, rfl⟩
    · rw [if_neg hvv]
      exact ⟨_, rfl⟩
  · intro c op hf
    unfold Chip8.execOpcode
    rw [hf]
    norm_num
    by_cases hvv : c.v ((op &&& 0x0F00) >>> 8) = c.v ((op &&& 0x00F0) >>> 4)
    · rw [if_pos hvv]
      exact ⟨_, rfl⟩
    · rw [if_neg hvv]
      exact ⟨_, rfl⟩

/-- C2 witness: a 0x9-family opcode with nonzero trailing nibble (`9341`)
dispatches normally. -/
theorem c2_witness :
    Chip8.execOpcode Chip8.new 0x9341 = .ok (stepOk Chip8.new 0x9341, false) := by
  obtain ⟨c', hc⟩ := c2_theorem.2.2 Chip8.new 0x9341 rfl
  rw [hc]
  simp only [stepOk, hc]

/-! ## C9 — memory writes and the reachability of the out-of-bounds branch -/

/-- Inverting a successful dispatch pair. -/
theorem ok_pair_state (S c1 : Chip8) (b' b : Bool)
    (h : (Except.ok (S, b') : Except EmuErr (Chip8 × Bool)) = .ok (c1, b)) :
    c1 = S := by
  simp only [Except.ok.injEq, Prod.mk.injEq] at h
  exact h.1.symm

/-- A completed store never changes cells at addresses ≥ 4096. -/
theorem memWrite_high (m : Nat → Nat) (addr b : Nat) (m' : Nat → Nat)
    (h : memWrite m addr b = .ok m') (a : Nat) (ha : 4096 ≤ a) : m' a = m a := by
  unfold memWrite at h
  split at h
  · simp only [Except.ok.injEq] at h
    subst h
    exact upd_ne _ _ _ _ (by omega)
  · simp at h

/-- A completed register dump never changes cells at addresses ≥ 4096. -/
theorem dumpRegs_high (v : Nat → Nat) (base : Nat) :
    ∀ (n k : Nat) (mem m' : Nat → Nat), dumpRegs v base n k mem = .ok m' →
      ∀ a, 4096 ≤ a → m' a = mem a := by
  intro n
  induction n with
  | zero =>
    intro k mem m' h a ha
    simp only [dumpRegs, Except.ok.injEq] at h
    subst h
    rfl
  | succ n ih =>
    intro k mem m' h a ha
    simp only [dumpRegs] at h
    split at h
    · simp at h
    · next m2 heq =>
      rw [ih _ _ _ h a ha]
      exact memWrite_high _ _ _ _ heq a ha

/-- The ROM copy loop never touches cells outside `[base, base + len)`. -/
theorem writeBytes_outside (bytes : List Nat) :
    ∀ (mem : Nat → Nat) (base a : Nat),
      (a < base ∨ base + bytes.length ≤ a) → writeBytes mem base bytes a = mem a := by
  induction bytes with
  | nil => intro mem base a _; rfl
  | cons b rest ih =>
    intro mem base a ha
    simp only [List.length_cons] at ha
    simp only [writeBytes]
    rw [ih _ _ _ (by omega)]
    exact upd_ne _ _ _ _ (by omega)

set_option maxHeartbeats 2000000 in
/-- C9 (amended): a completed dispatch never mutates a memory cell at an
address ≥ 4096 (every store is bounds-guarded and the step aborts otherwise),
and a completed load never does either; but there is no 12-bit masking, and
the out-of-bounds branch of the embedded memory store is reachable: `FX33`
with `I = 0xFFF` (as `ANNN` alone can produce) aborts with an index panic. -/
theorem c9_theorem :
    (∀ (c : Chip8) (op : Nat) (c1 : Chip8) (b : Bool),
        Chip8.execOpcode c op = .ok (c1, b) →
        ∀ a, 4096 ≤ a → c1.memory a = c.memory a) ∧
    (∀ (c : Chip8) (bytes : List Nat) (c1 : Chip8),
        Chip8.load c bytes = .ok c1 →
        ∀ a, 4096 ≤ a → c1.memory a = c.memory a) ∧
    Chip8.execOpcode { Chip8.new with i := 0xFFF } 0xF033 =
      .error .indexOutOfBounds := by
  refine ⟨?_, ?_, rfl⟩
  · intro c op c1 b h a ha
    obtain ⟨q, hqlt, hq⟩ : ∃ q, q < 16 ∧ op &&& 0xF000 = q * 4096 :=
      ⟨_, Nat.mod_lt _ (by norm_num), and_f000_eq op⟩
    unfold Chip8.execOpcode at h
    rw [hq, and_f_eq, and_ff_eq] at h
    interval_cases q
    · norm_num at h
      by_cases e0 : op % 16 = 0
      · rw [if_pos e0] at h
        rw [ok_pair_state _ _ _ _ h]
      · rw [if_neg e0] at h
        by_cases eE : op % 16 = 14
        · rw [if_pos eE] at h
          split at h
          · rw [ok_pair_state _ _ _ _ h]
          · simp at h
        · rw [if_neg eE] at h
          simp at h
    · norm_num at h
      rw [← h.1]
    · norm_num at h
      split at h
      · rw [ok_pair_state _ _ _ _ h]
      · simp at h
    · norm_num at h
      split at h <;> rw [ok_pair_state _ _ _ _ h]
    · norm_num at h
      split at h <;> rw [ok_pair_state _ _ _ _ h]
    · norm_num at h
      split at h <;> rw [ok_pair_state _ _ _ _ h]
    · norm_num at h
      rw [← h.1]
    · norm_num at h
      rw [← h.1]
    · norm_num at h
      by_cases e0 : op % 16 = 0
      · rw [if_pos e0] at h
        rw [ok_pair_state _ _ _ _ h]
      · rw [if_neg e0] at h
        by_cases e1 : op % 16 = 1
        · rw [if_pos e1] at h
          rw [ok_pair_state _ _ _ _ h]
        · rw [if_neg e1] at h
          by_cases e2 : op % 16 = 2
          · rw [if_pos e2] at h
            rw [ok_pair_state _ _ _ _ h]
          · rw [if_neg e2] at h
            by_cases e3 : op % 16 = 3
            · rw [if_pos e3] at h
              rw [ok_pair_state _ _ _ _ h]
            · rw [if_neg e3] at h
              by_cases e4 : op % 16 = 4
              · rw [if_pos e4] at h
                rw [ok_pair_state _ _ _ _ h]
              · rw [if_neg e4] at h
                by_cases e5 : op % 16 = 5
                · rw [if_pos e5] at h
                  rw [ok_pair_state _ _ _ _ h]
                · rw [if_neg e5] at h
                  by_cases e6 : op % 16 = 6
                  · rw [if_pos e6] at h
                    rw [ok_pair_state _ _ _ _ h]
                  · rw [if_neg e6] at h
                    by_cases e7 : op % 16 = 7
                    · rw [if_pos e7] at h
                      rw [ok_pair_state _ _ _ _ h]
                    · rw [if_neg e7] at h
                      by_cases eE : op % 16 = 14
                      · rw [if_pos eE] at h
                        rw [ok_pair_state _ _ _ _ h]
                      · rw [if_neg eE] at h
                        simp at h
    · norm_num at h
      split at h <;> rw [ok_pair_state _ _ _ _ h]
    · norm_num at h
      rw [← h.1]
    · norm_num at h
      rw [← h.1]
    · norm_num at h
      rw [← h.1]
    · norm_num at h
      split at h
      · simp at h
      · rw [ok_pair_state _ _ _ _ h]
    · norm_num at h
      by_cases e9E : op % 256 = 158
      · rw [if_pos e9E] at h
        split at h
        · split at h <;> rw [ok_pair_state _ _ _ _ h]
        · simp at h
      · rw [if_neg e9E] at h
        by_cases eA1 : op % 256 = 161
        · rw [if_pos eA1] at h
          split at h
          · split at h <;> rw [ok_pair_state _ _ _ _ h]
          · simp at h
        · rw [if_neg eA1] at h
          simp at h
    · norm_num at h
      by_cases f07 : op % 256 = 7
      · rw [if_pos f07] at h
        rw [ok_pair_state _ _ _ _ h]
      · rw [if_neg f07] at h
        by_cases f0A : op % 256 = 10
        · rw [if_pos f0A] at h
          split at h <;> rw [ok_pair_state _ _ _ _ h]
        · rw [if_neg f0A] at h
          by_cases f15 : op % 256 = 21
          · rw [if_pos f15] at h
            rw [ok_pair_state _ _ _ _ h]
          · rw [if_neg f15] at h
            by_cases f18 : op % 256 = 24
            · rw [if_pos f18] at h
              rw [ok_pair_state _ _ _ _ h]
            · rw [if_neg f18] at h
              by_cases f1E : op % 256 = 30
              · rw [if_pos f1E] at h
                rw [ok_pair_state _ _ _ _ h]
              · rw [if_neg f1E] at h
                by_cases f29 : op % 256 = 41
                · rw [if_pos f29] at h
                  rw [ok_pair_state _ _ _ _ h]
                · rw [if_neg f29] at h
                  by_cases f33 : op % 256 = 51
                  · rw [if_pos f33] at h
                    split at h
                    · simp at h
                    · next m1 heq1 =>
                      split at h
                      · simp at h
                      · next m2 heq2 =>
                        split at h
                        · simp at h
                        · next m3 heq3 =>
                          have hc := ok_pair_state _ _ _ _ h
                          subst hc
                          dsimp only
                          rw [memWrite_high _ _ _ _ heq3 a ha,
                            memWrite_high _ _ _ _ heq2 a ha,
                            memWrite_high _ _ _ _ heq1 a ha]
                  · rw [if_neg f33] at h
                    by_cases f55 : op % 256 = 85
                    · rw [if_pos f55] at h
                      split at h
                      · simp at h
                      · next m' heq =>
                        have hc := ok_pair_state _ _ _ _ h
                        subst hc
                        dsimp only
                        exact dumpRegs_high _ _ _ _ _ _ heq a ha
                    · rw [if_neg f55] at h
                      by_cases f65 : op % 256 = 101
                      · rw [if_pos f65] at h
                        split at h
                        · simp at h
                        · rw [ok_pair_state _ _ _ _ h]
                      · rw [if_neg f65] at h
                        simp at h
  · intro c bytes c1 h a ha
    unfold Chip8.load at h
    split at h
    · simp at h
    · next hlen =>
      simp only [LoadResult.ok.injEq] at h
      subst h
      dsimp only
      exact writeBytes_outside _ _ _ _ (by omega)

/-- ROM used to refute C9: `AFFF` (set `I = 0xFFF`) then `F033` (BCD store at
`I`, `I+1`, `I+2`). -/
def c9rom : List Nat := [0xAF, 0xFF, 0xF0, 0x33]

/-- C9 counterexample: from a freshly constructed machine, loading `c9rom`
and stepping twice reaches the out-of-bounds branch of the embedded memory
store (the second BCD address is 0x1000 ≥ 4096), so that branch is reachable
— the code has no 12-bit masking; the Rust original panics here. -/
theorem c9_counterexample :
    Chip8.load Chip8.new c9rom = .ok (loadOk Chip8.new c9rom) ∧
    Chip8.emulate_cycle (loadOk Chip8.new c9rom) =
      .ok (cycleOk (loadOk Chip8.new c9rom)) ∧
    Chip8.emulate_cycle (cycleOk (loadOk Chip8.new c9rom)) =
      .error .indexOutOfBounds :=
  ⟨rfl, rfl, rfl⟩

/-- C9 witness: a completed `6005` dispatch leaves cell 4096 unchanged. -/
theorem c9_witness :
    (stepOk Chip8.new 0x6005).memory 4096 = Chip8.new.memory 4096 :=
  c9_theorem.1 Chip8.new 0x6005 (stepOk Chip8.new 0x6005) false rfl 4096
    (by norm_num)

/-! ## C7 — double draw as a self-inverse XOR -/

/-- One `gfx[idx] ^= 1` store. -/
def flipCell (g : Nat → Nat) (idx : Nat) : Nat → Nat :=
  upd g idx (g idx ^^^ 1)

/-- Flip a list of cells left to right. -/
def flipCells : List Nat → (Nat → Nat) → (Nat → Nat)
  | [], g => g
  | idx :: t, g => flipCells t (flipCell g idx)

/-- The in-bounds set-bit flat indices of one sprite row, in loop order. -/
def rowIdxs (pixel x yy : Nat) : Nat → Nat → List Nat
  | 0, _ => []
  | n + 1, xl =>
    (if pixel &&& (0x80 >>> xl) ≠ 0 ∧ x + xl + yy * 64 < 2048
     then [x + xl + yy * 64] else []) ++ rowIdxs pixel x yy n (xl + 1)

/-- All in-bounds set-bit flat indices of a sprite, row-major, in loop order
(a row whose memory-read guard fails contributes nothing; the lemmas below
use this only under a completed draw, where every guard holds). -/
def spriteIdxs (mem : Nat → Nat) (i x y : Nat) : Nat → Nat → List Nat
  | 0, _ => []
  | n + 1, yl =>
    (if (i + yl) % 65536 < 4096
     then rowIdxs (mem ((i + yl) % 65536)) x (y + yl) 8 0 else []) ++
      spriteIdxs mem i x y n (yl + 1)

theorem flipCells_append (L1 L2 : List Nat) :
    ∀ g : Nat → Nat, flipCells (L1 ++ L2) g = flipCells L2 (flipCells L1 g) := by
  induction L1 with
  | nil => intro g; rfl
  | cons a t ih => intro g; simp only [List.cons_append, flipCells]; exact ih _

/-- The pixel surface produced by the inner loop is the flip of the row's
index list. -/
theorem drawX_fst (pixel x yy : Nat) :
    ∀ (n xl : Nat) (g : Nat → Nat) (vf : Nat),
      (drawX pixel x yy n xl (g, vf)).1 = flipCells (rowIdxs pixel x yy n xl) g := by
  intro n
  induction n with
  | zero => intro xl g vf; rfl
  | succ n ih =>
    intro xl g vf
    simp only [drawX, rowIdxs]
    by_cases hbit : pixel &&& (0x80 >>> xl) ≠ 0
    · by_cases hidx : x + xl + yy * 64 < 2048
      · rw [if_pos hbit, if_pos hidx, if_pos (And.intro hbit hidx)]
        simp only [List.singleton_append, flipCells]
        exact ih (xl + 1) _ _
      · rw [if_pos hbit, if_neg hidx, if_neg (by tauto)]
        simp only [List.nil_append]
        exact ih (xl + 1) g vf
    · rw [if_neg hbit, if_neg (by tauto)]
      simp only [List.nil_append]
      exact ih (xl + 1) g vf

/-- The pixel surface produced by a completed row loop is the flip of the
sprite's index list. -/
theorem drawY_fst (mem : Nat → Nat) (i x y : Nat) :
    ∀ (n yl : Nat) (g : Nat → Nat) (vf : Nat) (gv : (Nat → Nat) × Nat),
      drawY mem i x y n yl (g, vf) = .ok gv →
      gv.1 = flipCells (spriteIdxs mem i x y n yl) g := by
  intro n
  induction n with
  | zero =>
    intro yl g vf gv h
    simp only [drawY, Except.ok.injEq] at h
    rw [← h]
    rfl
  | succ n ih =>
    intro yl g vf gv h
    simp only [drawY] at h
    simp only [spriteIdxs]
    split at h
    · next hguard =>
      rw [if_pos hguard, flipCells_append, ← drawX_fst]
      exact ih (yl + 1) _ _ gv h
    · simp at h

theorem mem_rowIdxs (pixel x yy : Nat) :
    ∀ (n xl m : Nat), m ∈ rowIdxs pixel x yy n xl →
      ∃ j, xl ≤ j ∧ j < xl + n ∧ m = x + j + yy * 64 := by
  intro n
  induction n with
  | zero => intro xl m h; simp [rowIdxs] at h
  | succ n ih =>
    intro xl m h
    simp only [rowIdxs, List.mem_append] at h
    rcases h with h | h
    · refine ⟨xl, le_rfl, by omega, ?_⟩
      split at h
      · simpa using h
      · simp at h
    · obtain ⟨j, h1, h2, h3⟩ := ih (xl + 1) m h
      exact ⟨j, by omega, by omega, h3⟩

theorem rowIdxs_nodup (pixel x yy : Nat) :
    ∀ (n xl : Nat), (rowIdxs pixel x yy n xl).Nodup := by
  intro n
  induction n with
  | zero => intro xl; simp [rowIdxs]
  | succ n ih =>
    intro xl
    simp only [rowIdxs]
    split
    · simp only [List.singleton_append, List.nodup_cons]
      refine ⟨fun hmem => ?_, ih (xl + 1)⟩
      obtain ⟨j, h1, h2, h3⟩ := mem_rowIdxs pixel x yy n (xl + 1) _ hmem
      omega
    · simpa using ih (xl + 1)

theorem mem_spriteIdxs (mem : Nat → Nat) (i x y : Nat) :
    ∀ (n yl m : Nat), m ∈ spriteIdxs mem i x y n yl →
      ∃ j xl, yl ≤ j ∧ j < yl + n ∧ xl < 8 ∧ m = x + xl + (y + j) * 64 := by
  intro n
  induction n with
  | zero => intro yl m h; simp [spriteIdxs] at h
  | succ n ih =>
    intro yl m h
    simp only [spriteIdxs, List.mem_append] at h
    rcases h with h | h
    · split at h
      · obtain ⟨j, h1, h2, h3⟩ := mem_rowIdxs _ x (y + yl) 8 0 m h
        exact ⟨yl, j, le_rfl, by omega, by omega, h3⟩
      · simp at h
    · obtain ⟨j, xl, h1, h2, h3, h4⟩ := ih (yl + 1) m h
      exact ⟨j, xl, by omega, by omega, h3, h4⟩

theorem spriteIdxs_nodup (mem : Nat → Nat) (i x y : Nat) :
    ∀ (n yl : Nat), (spriteIdxs mem i x y n yl).Nodup := by
  intro n
  induction n with
  | zero => intro yl; simp [spriteIdxs]
  | succ n ih =>
    intro yl
    simp only [spriteIdxs]
    refine List.Nodup.append ?_ (ih (yl + 1)) ?_
    · split
      · exact rowIdxs_nodup _ _ _ 8 0
      · exact List.nodup_nil
    · intro m hm1 hm2
      obtain ⟨j, xl, hj1, hj2, hxl, hm⟩ := mem_spriteIdxs mem i x y n (yl + 1) m hm2
      split at hm1
      · obtain ⟨j', h1, h2, h3⟩ := mem_rowIdxs _ x (y + yl) 8 0 m hm1
        have hexp1 : (y + yl) * 64 = y * 64 + yl * 64 := by ring
        have hexp2 : (y + j) * 64 = y * 64 + j * 64 := by ring
        omega
      · simp at hm1

theorem flipCell_flipCell (g : Nat → Nat) (idx : Nat) :
    flipCell (flipCell g idx) idx = g := by
  funext k
  simp only [flipCell, upd]
  by_cases hk : k = idx
  · subst hk
    simp [Nat.xor_assoc]
  · simp [hk]

theorem flipCell_comm (g : Nat → Nat) (a b : Nat) (hab : a ≠ b) :
    flipCell (flipCell g a) b = flipCell (flipCell g b) a := by
  funext k
  simp only [flipCell, upd]
  by_cases hka : k = a
  · subst hka
    simp [hab, Ne.symm hab]
  · by_cases hkb : k = b
    · subst hkb
      simp [hab, Ne.symm hab, hka]
    · simp [hka, hkb]

theorem flipCells_flipCell (L : List Nat) (a : Nat) (ha : a ∉ L) :
    ∀ g : Nat → Nat, flipCells L (flipCell g a) = flipCell (flipCells L g) a := by
  induction L with
  | nil => intro g; rfl
  | cons b t ih =>
    intro g
    simp only [List.mem_cons, not_or] at ha
    simp only [flipCells]
    rw [flipCell_comm g a b ha.1, ih ha.2]

/-- Flipping a duplicate-free list of cells twice restores the surface. -/
theorem flipCells_involution (L : List Nat) (hnd : L.Nodup) :
    ∀ g : Nat → Nat, flipCells L (flipCells L g) = g := by
  induction L with
  | nil => intro g; rfl
  | cons a t ih =>
    intro g
    simp only [List.nodup_cons] at hnd
    simp only [flipCells]
    rw [← flipCells_flipCell t a hnd.1, flipCell_flipCell, ih hnd.2]

set_option maxHeartbeats 2000000 in
/-- C7 (amended): after `00E0`, drawing the same `DXYN` twice in succession
restores every pixel to 0, provided the coordinate registers X and Y are not
`0xF` — the draw itself overwrites `VF` with the collision flag, so a sprite
positioned through `VF` moves between the two draws and the surface is not
restored (see the counterexample). -/
theorem c7_theorem (c : Chip8) (op : Nat) {c1 c2 c3 : Chip8}
    {b1 b2 b3 : Bool}
    (hf : op &&& 0xF000 = 0xD000)
    (hX : (op &&& 0x0F00) >>> 8 ≠ 15) (hY : (op &&& 0x00F0) >>> 4 ≠ 15)
    (h0 : Chip8.execOpcode c 0x00E0 = .ok (c1, b1))
    (h1 : Chip8.execOpcode c1 op = .ok (c2, b2))
    (h2 : Chip8.execOpcode c2 op = .ok (c3, b3)) :
    ∀ k, c3.gfx k = 0 := by
  have hclear : Chip8.execOpcode c 0x00E0 =
      .ok ({ c with
              gfx := fun _ => 0
              draw_flag := true
              pc := (c.pc + 2) % 65536 }, false) := rfl
  rw [hclear] at h0
  have hc1 := ok_pair_state _ _ _ _ h0
  subst hc1
  unfold Chip8.execOpcode at h1
  rw [hf] at h1
  norm_num at h1
  split at h1
  · simp at h1
  · next gv1 heq1 =>
    have hc2 := ok_pair_state _ _ _ _ h1
    subst hc2
    unfold Chip8.execOpcode at h2
    rw [hf] at h2
    norm_num at h2
    rw [upd_ne _ _ _ _ hX, upd_ne _ _ _ _ hY] at h2
    split at h2
    · simp at h2
    · next gv2 heq2 =>
      have hc3 := ok_pair_state _ _ _ _ h2
      subst hc3
      dsimp only at heq1 heq2 ⊢
      have hg1 := drawY_fst _ _ _ _ _ _ _ _ _ heq1
      have hg2 := drawY_fst _ _ _ _ _ _ _ _ _ heq2
      intro k
      rw [hg2, hg1, flipCells_involution _ (spriteIdxs_nodup _ _ _ _ _ _)]

/-- State used to refute C7: the sprite x-coordinate register is `VF`
(`VF = 1`), `V0 = 0` is the y-coordinate, sprite byte `0x80` at `0x300`. -/
def c7state : Chip8 :=
  { Chip8.new with
      v := fun k => if k = 15 then 1 else 0
      i := 0x300
      memory := upd Chip8.new.memory 0x300 0x80 }

/-- C7 counterexample: `00E0`, then `DF01` twice in succession with nothing
modified in between.  The first draw sets pixel 1 and clears `VF` (its
collision flag), so the second draw lands at x = 0 instead of x = 1: pixel 1
— touched by the first draw — is left at 1, not restored to 0. -/
theorem c7_counterexample :
    Chip8.execOpcode (stepOk c7state 0x00E0) 0xDF01 =
      .ok (stepOk (stepOk c7state 0x00E0) 0xDF01, false) ∧
    Chip8.execOpcode (stepOk (stepOk c7state 0x00E0) 0xDF01) 0xDF01 =
      .ok (stepOk (stepOk (stepOk c7state 0x00E0) 0xDF01) 0xDF01, false) ∧
    (stepOk c7state 0x00E0).gfx 1 = 0 ∧
    (stepOk (stepOk c7state 0x00E0) 0xDF01).gfx 1 = 1 ∧
    (stepOk (stepOk (stepOk c7state 0x00E0) 0xDF01) 0xDF01).gfx 1 = 1 :=
  ⟨rfl, rfl, rfl, rfl, rfl⟩

/-- Witness state for C7: `V0 = 3`, `V1 = 2`, two-row sprite at `0x305`. -/
def c7wstate : Chip8 :=
  { Chip8.new with
      v := fun k => if k = 0 then 3 else if k = 1 then 2 else 0
      i := 0x305
      memory := upd (upd Chip8.new.memory 0x305 0xA5) 0x306 0x5A }

/-- C7 witness: clear, then `D012` twice, restores pixel (3, 2) (flat index
131, set by the first draw) to 0. -/
theorem c7_witness :
    (stepOk (stepOk (stepOk c7wstate 0x00E0) 0xD012) 0xD012).gfx 131 = 0 :=
  c7_theorem c7wstate 0xD012 rfl (by decide) (by decide) rfl rfl rfl 131
